import Mathlib

/-!
Verification of the judgeme-proxy service (src/index.js and the unnamed
service variants, notably src/unnamed/part_002 which carries the price
endpoint).  The JavaScript is shallowly embedded: JS numbers that can be
NaN or infinite are modelled by `JSNum`, JS string-to-number coercion by
`toNumber` (restricted to the decimal-literal fragment that price and
metafield strings use), and the express handlers become pure functions
from an explicit upstream response to an HTTP-level outcome.
-/

/-- Model of a JS number as used by the price pipeline: a finite rational,
NaN, or a signed infinity.  (JS distinguishes -0 from +0; the strings fed
to `Number` here never produce -0, so a single zero suffices.) -/
inductive JSNum where
  | num (q : ℚ)
  | nan
  | inf
  | ninf
deriving DecidableEq, Repr

/-- JS truthiness of a number: 0 and NaN are falsy, everything else truthy. -/
def JSNum.truthy : JSNum → Bool
  | .num q => q != 0
  | .nan => false
  | .inf => true
  | .ninf => true

/-- JS multiplication on `JSNum` (used for `sf_box * bx_plt`). -/
def JSNum.mul : JSNum → JSNum → JSNum
  | .nan, _ => .nan
  | _, .nan => .nan
  | .num a, .num b => .num (a * b)
  | .num a, .inf => if a = 0 then .nan else if 0 < a then .inf else .ninf
  | .num a, .ninf => if a = 0 then .nan else if 0 < a then .ninf else .inf
  | .inf, .num b => if b = 0 then .nan else if 0 < b then .inf else .ninf
  | .ninf, .num b => if b = 0 then .nan else if 0 < b then .ninf else .inf
  | .inf, .inf => .inf
  | .inf, .ninf => .ninf
  | .ninf, .inf => .ninf
  | .ninf, .ninf => .inf

/-- JS division on `JSNum` (used for `price / totalSf`); division of a
nonzero finite number by zero yields a signed infinity, 0/0 yields NaN. -/
def JSNum.div : JSNum → JSNum → JSNum
  | .nan, _ => .nan
  | _, .nan => .nan
  | .num a, .num b =>
      if b = 0 then (if a = 0 then .nan else if 0 < a then .inf else .ninf)
      else .num (a / b)
  | .num _, .inf => .num 0
  | .num _, .ninf => .num 0
  | .inf, .num b => if 0 ≤ b then .inf else .ninf
  | .ninf, .num b => if 0 ≤ b then .ninf else .inf
  | .inf, .inf => .nan
  | .inf, .ninf => .nan
  | .ninf, .inf => .nan
  | .ninf, .ninf => .nan

/-- Numeric value of a digit character. -/
def digitVal (c : Char) : ℕ := c.toNat - 48

/-- Value of a (all-digit) character list read in base 10. -/
def natOfDigits (cs : List Char) : ℕ :=
  cs.foldl (fun a c => a * 10 + digitVal c) 0

/-- Core of the JS `ToNumber` coercion on an unsigned decimal literal:
an optional integer part, optionally followed by a dot and a fraction
part; anything else is NaN (`none`).  The value is assembled with a
single `mkRat` so that it evaluates inside the kernel. -/
def parseDecCore (cs : List Char) : Option ℚ :=
  let ip := cs.takeWhile Char.isDigit
  let rest := cs.dropWhile Char.isDigit
  match rest with
  | [] => if ip.isEmpty then none else some (mkRat (Int.ofNat (natOfDigits ip)) 1)
  | '.' :: fr =>
      if fr.all Char.isDigit && !(ip.isEmpty && fr.isEmpty) then
        some (mkRat (Int.ofNat (natOfDigits ip * 10 ^ fr.length + natOfDigits fr))
          (10 ^ fr.length))
      else none
  | _ => none

/-- JS `ToNumber` on a string, restricted to the decimal-literal fragment
produced by the catalog API (price strings such as "10.00") and by the
pricelist metafields; the empty string coerces to 0, a non-literal to NaN. -/
def toNumber (s : String) : JSNum :=
  match s.data with
  | [] => .num 0
  | '-' :: cs =>
      match parseDecCore cs with
      | some q => .num (-q)
      | none => .nan
  | cs =>
      match parseDecCore cs with
      | some q => .num q
      | none => .nan

/-- JS `a > b` on two strings: lexicographic comparison by code units. -/
def lexGtChars : List Char → List Char → Bool
  | [], _ => false
  | _ :: _, [] => true
  | a :: as, b :: bs =>
      if a.toNat = b.toNat then lexGtChars as bs
      else decide (b.toNat < a.toNat)

/-- JS `a > b` once both operands are numbers; any NaN operand gives false. -/
def jsGtNum (a b : JSNum) : Bool :=
  match a, b with
  | .num x, .num y => decide (y < x)
  | .nan, _ => false
  | _, .nan => false
  | .inf, .inf => false
  | .inf, _ => true
  | .num _, .inf => false
  | .ninf, _ => false
  | .num _, .ninf => true

/-- Embedding of `variant.compareAtPrice > variant.price`
(src/unnamed/part_002 line 332).  `compareAtPrice` is a nullable decimal
string, `price` a decimal string.  Per the ECMA relational comparison:
two strings compare lexicographically by code units; `null` against a
string compares numerically with `ToNumber(null) = 0`. -/
def jsOnSale (compareAtPrice : Option String) (price : String) : Bool :=
  match compareAtPrice with
  | some c => lexGtChars c.data price.data
  | none => jsGtNum (.num 0) (toNumber price)

/-- Lookup in the object built by `reduce((acc, meta) => acc[meta.key] = meta.value)`
over a metafield list: the last assignment to a key wins. -/
def metaLookup (ms : List (String × String)) (k : String) : Option String :=
  (ms.reverse.find? (fun m => m.1 == k)).map (·.2)

/-- `Number(metafields.k)`: a missing key reads as `undefined`, which
coerces to NaN; a present value string goes through `ToNumber`. -/
def jsNumOfMeta : Option String → JSNum
  | none => .nan
  | some s => toNumber s

example : toNumber "100" = .num 100 := by decide
example : toNumber "10.00" = .num 10 := by decide
example : toNumber "" = .num 0 := by decide
example : toNumber "9.00" = .num 9 := by decide
example : toNumber "abc" = .nan := by decide
example : toNumber "-5" = .num (-5) := by decide
example : lexGtChars "9.00".data "10.00".data = true := by decide
example : jsOnSale (some "9.00") "10.00" = true := by decide
example : jsOnSale none "10.00" = false := by decide
example : JSNum.div (.num 50) (.num 0) = .inf := by decide
example : metaLookup [("sf_box", "10")] "sf_box" = some "10" := by decide
example : jsNumOfMeta (metaLookup [("sf_box", "10")] "sf_box") = .num 10 := by decide

/-! ## Reviews path (src/index.js lines 69-259) -/

/-- `review.reviewer` shape. -/
structure RawReviewer where
  name : Option String
deriving DecidableEq, Repr

/-- `pic.urls` shape. -/
structure RawPictureUrls where
  huge : Option String
  compact : Option String
deriving DecidableEq, Repr

/-- One entry of `review.pictures`. -/
structure RawPicture where
  urls : Option RawPictureUrls
deriving DecidableEq, Repr

/-- A raw review record as received from the reviews upstream.
`published` is nullable (`=== true` in the filter is a strict test),
`reviewer` and `pictures` are optional chains in `sanitizeReview`. -/
structure RawReview where
  rating : Int
  created_at : String
  product_handle : String
  product_title : String
  title : String
  body : String
  published : Option Bool
  reviewer : Option RawReviewer
  pictures : Option (List RawPicture)
deriving DecidableEq, Repr

/-- Sanitized picture: only the two whitelisted urls survive. -/
structure SanPicture where
  huge : Option String
  compact : Option String
deriving DecidableEq, Repr

/-- The public review shape produced by `sanitizeReview`. -/
structure SanReview where
  rating : Int
  created_at : String
  product_handle : String
  product_title : String
  title : String
  body : String
  reviewer_name : Option String
  pictures : List SanPicture
deriving DecidableEq, Repr

/-- `sanitizeReview` (src/index.js lines 69-87): projection onto the
public fields; `review.pictures?.map(...) || []` yields `[]` when
`pictures` is null/undefined. -/
def sanitizeReview (r : RawReview) : SanReview :=
  { rating := r.rating
    created_at := r.created_at
    product_handle := r.product_handle
    product_title := r.product_title
    title := r.title
    body := r.body
    reviewer_name := r.reviewer.bind (·.name)
    pictures := (r.pictures.getD []).map fun pic =>
      { huge := pic.urls.bind (·.huge), compact := pic.urls.bind (·.compact) } }

/-- The `{ reviews: ... }` payload written to the cache and returned. -/
structure SanitizedData where
  reviews : List SanReview
deriving DecidableEq, Repr

/-- The filter-then-project step (src/index.js lines 238-242):
`review.published === true && review.rating >= 4`, then `sanitizeReview`. -/
def sanitizedReviews (all : List RawReview) : SanitizedData :=
  ⟨(all.filter fun r => r.published == some true && decide (4 ≤ r.rating)).map
    sanitizeReview⟩

instance {ε α : Type} [DecidableEq ε] [DecidableEq α] : DecidableEq (Except ε α) :=
  fun x y =>
  match x, y with
  | .ok a, .ok b => if h : a = b then .isTrue (by rw [h]) else .isFalse (by simp [h])
  | .error a, .error b =>
      if h : a = b then .isTrue (by rw [h]) else .isFalse (by simp [h])
  | .ok _, .error _ => .isFalse (by simp)
  | .error _, .ok _ => .isFalse (by simp)

/-- One step of the pagination `while` loop (src/index.js lines 217-235),
with the upstream modelled as a finite collection served in page-sized
slices: page `p` of dataset `remaining` returns `remaining.take 100` and
the next iteration continues on `remaining.drop 100`.  `fail p` means
the request for page `p` throws (timeout or HTTP error); the exception
aborts the loop and discards everything accumulated so far.  The first
component records the length of each page received (one entry per
successful request).  The `Nat` argument is fuel bounding the number of
iterations; each non-final iteration consumes 100 records, so any fuel
exceeding the dataset length is never exhausted (see
`fetchPagesGo_nofail`). -/
def fetchPagesGo (fail : Nat → Bool) :
    Nat → List RawReview → Nat → List Nat × Except Unit (List RawReview)
  | 0, _, _ => ([], .error ())
  | fuel + 1, remaining, page =>
      if fail page then ([], .error ())
      else
        let pg := remaining.take 100
        if pg.length < 100 then ([pg.length], .ok pg)
        else
          match fetchPagesGo fail fuel (remaining.drop 100) (page + 1) with
          | (tr, .ok rest) => (pg.length :: tr, .ok (pg ++ rest))
          | (tr, .error e) => (pg.length :: tr, .error e)

/-- The full pagination run starting at page 1 over dataset `upstream`. -/
def fetchPages (fail : Nat → Bool) (upstream : List RawReview) (page : Nat) :
    List Nat × Except Unit (List RawReview) :=
  fetchPagesGo fail (upstream.length + 1) upstream page

/-- The module-level `reviewsCache` slot (src/index.js lines 90-93). -/
structure ReviewsCache where
  data : Option SanitizedData
  lastFetched : Option Int
deriving DecidableEq, Repr

/-- 24 hours in milliseconds (src/index.js line 95). -/
def CACHE_DURATION : Int := 24 * 60 * 60 * 1000

/-- The freshness test (src/index.js lines 207-208):
`reviewsCache.data && reviewsCache.lastFetched && (Date.now() - lastFetched) < CACHE_DURATION`.
A stored timestamp of 0 is falsy in JS, hence the `t != 0` conjunct. -/
def cacheFresh (c : ReviewsCache) (now : Int) : Bool :=
  c.data.isSome &&
    match c.lastFetched with
    | some t => t != 0 && decide (now - t < CACHE_DURATION)
    | none => false

/-- Outcome of the `/fetch` endpoint as seen by the client. -/
inductive FetchResult where
  | ok (d : SanitizedData)
  | err500
deriving DecidableEq, Repr

/-- The refresh path of the `/fetch` handler (src/index.js lines 212-258):
run the pagination loop; on success sanitize, overwrite the cache and
return the new payload; on failure serve the previously cached payload
if one exists (cache left untouched), else report HTTP 500. -/
def refreshRun (cache : ReviewsCache) (now : Int) (fail : Nat → Bool)
    (upstream : List RawReview) : ReviewsCache × FetchResult :=
  match (fetchPages fail upstream 1).2 with
  | .ok all =>
      let s := sanitizedReviews all
      ({ data := some s, lastFetched := some now }, .ok s)
  | .error _ =>
      match cache.data with
      | some d => (cache, .ok d)
      | none => (cache, .err500)

/-- The `/fetch` handler (src/index.js lines 204-259): serve the cache
when fresh, otherwise refresh.  (When fresh, `reviewsCache.data` is
necessarily set, so the `err500` arm of the inner match is dead code.) -/
def fetchHandler (cache : ReviewsCache) (now : Int) (fail : Nat → Bool)
    (upstream : List RawReview) : ReviewsCache × FetchResult :=
  if cacheFresh cache now then
    (cache, match cache.data with
            | some d => .ok d
            | none => .err500)
  else refreshRun cache now fail upstream

example : fetchPages (fun _ => false) [] 1 = ([0], .ok []) := by decide
example :
    (fetchHandler ⟨some ⟨[]⟩, some 1⟩ 1000000000 (fun _ => true) []).2
      = .ok ⟨[]⟩ := by decide

/-! ## Products path (src/index.js lines 112-201) -/

/-- The `parent_product` metafield reference (`... on Product`). -/
structure ParentRef where
  title : String
  url : Option String
deriving DecidableEq, Repr

/-- One entry of a catalog node's `metafields.nodes`. -/
structure MetafieldNode where
  key : String
  reference : Option ParentRef
deriving DecidableEq, Repr

/-- One catalog `products.nodes` entry returned by a chunk query. -/
structure ProductNode where
  handle : String
  title : String
  featuredImage : Option String
  onlineStoreUrl : Option String
  metafields : List MetafieldNode
deriving DecidableEq, Repr

/-- The public product shape assembled by the handler. -/
structure ProductSummary where
  handle : String
  title : String
  featuredImage : Option String
  url : Option String
  parentProduct : Option ParentRef
deriving DecidableEq, Repr

/-- Per-node post-processing (src/index.js lines 177-189):
`node.featuredImage?.url || null` turns a missing image or empty url
into null; the parent product comes from the metafield with key
`parent_product` when it carries a reference. -/
def processNode (n : ProductNode) : ProductSummary :=
  let parentMetafield := n.metafields.find? fun m => m.key == "parent_product"
  { handle := n.handle
    title := n.title
    featuredImage :=
      match n.featuredImage with
      | some u => if u = "" then none else some u
      | none => none
    url := n.onlineStoreUrl
    parentProduct :=
      match parentMetafield with
      | some m => m.reference
      | none => none }

/-- The `handles` field of the request body as a JS value: absent,
null, some non-array value, or an array of handle strings. -/
inductive HandlesField where
  | missing
  | nullv
  | nonArray
  | arr (hs : List String)
deriving DecidableEq, Repr

/-- The chunking loop (src/index.js lines 123-127):
`for (let i = 0; i < handles.length; i += 50) push(handles.slice(i, i + 50))`.
The fuel argument bounds the iteration count; `handles.length` iterations
always suffice since every round consumes at least one handle. -/
def chunksGo : Nat → List String → List (List String)
  | 0, _ => []
  | fuel + 1, hs => if hs.isEmpty then [] else hs.take 50 :: chunksGo fuel (hs.drop 50)

/-- `handleChunks`: the chunk list built from the input handles. -/
def handleChunks (hs : List String) : List (List String) :=
  chunksGo hs.length hs

/-- Outcome of the `/products` endpoint. -/
inductive ProductsResult where
  | badRequest
  | serverError
  | ok (products : List ProductSummary)
deriving DecidableEq, Repr

/-- The `/products` handler (src/index.js lines 112-201).  The upstream
takes one chunk of handles and returns either a thrown error or the
(possibly absent) `products.nodes` list of the GraphQL response.  The
first component of the result is the list of chunk queries dispatched:
validation failure issues none, otherwise `Promise.all` dispatches one
query per chunk.  A single rejected chunk rejects the whole
`Promise.all`, landing in the catch (HTTP 500); otherwise the nodes of
every chunk that has them are concatenated and post-processed. -/
def productsHandler (body : HandlesField)
    (upstream : List String → Except Unit (Option (List ProductNode))) :
    List (List String) × ProductsResult :=
  match body with
  | .arr hs =>
      let chunks := handleChunks hs
      if chunks.all fun c => (upstream c).isOk then
        (chunks,
          .ok (((chunks.map fun c =>
            match upstream c with
            | .ok (some ns) => ns
            | _ => []).flatten).map processNode))
      else (chunks, .serverError)
  | _ => ([], .badRequest)

example : handleChunks [] = [] := by decide
example :
    (handleChunks (List.replicate 120 "h")).map List.length = [50, 50, 20] := by
  decide
example : (productsHandler .missing fun _ => .error ()).1 = [] := by decide

/-! ## Concurrency model for the `/fetch` cache (src/index.js lines 204-259)

A request handler is an async function; between its cache check and its
cache write it suspends at every upstream `await`, so other requests may
interleave there.  Each request is reduced to the two atomic phases that
matter for the shared `reviewsCache` slot: the synchronous cache check
(`start`), and the pagination-run-plus-cache-write (`fetching`, counted
as one upstream pagination run). -/

/-- Progress of one in-flight `/fetch` request. -/
inductive ReqPhase where
  | start
  | fetching
  | done
deriving DecidableEq, Repr

/-- Shared state: the cache slot plus a counter of pagination runs begun. -/
structure StampedeState where
  cache : ReviewsCache
  runs : Nat
deriving DecidableEq, Repr

/-- One scheduler step of one request: at `start` the handler performs the
freshness check of src/index.js lines 207-210 and either responds from the
cache or commits to refreshing; at `fetching` it performs the whole
refresh path (src/index.js lines 212-258) against the current shared
state. -/
def reqStep (now : Int) (fail : Nat → Bool) (upstream : List RawReview)
    (ph : ReqPhase) (s : StampedeState) : ReqPhase × StampedeState :=
  match ph with
  | .start => if cacheFresh s.cache now then (.done, s) else (.fetching, s)
  | .fetching =>
      let r := refreshRun s.cache now fail upstream
      (.done, { cache := r.1, runs := s.runs + 1 })
  | .done => (.done, s)

/-- Run a schedule: a list of request indices, each entry letting that
request take its next step against the shared state. -/
def execSchedule (now : Int) (fail : Nat → Bool) (upstream : List RawReview) :
    List Nat → (Nat → ReqPhase) → StampedeState → (Nat → ReqPhase) × StampedeState
  | [], phs, s => (phs, s)
  | i :: rest, phs, s =>
      let st := reqStep now fail upstream (phs i) s
      execSchedule now fail upstream rest (fun j => if j = i then st.1 else phs j) st.2

example :
    (execSchedule 0 (fun _ => false) [] [0, 1, 0, 1] (fun _ => .start)
      ⟨⟨none, none⟩, 0⟩).2.runs = 2 := by decide

/-! ## Price path (src/unnamed/part_002 lines 260-509) -/

/-- The primary variant record of the price query. -/
structure PriceVariant where
  price : String
  compareAtPrice : Option String
  inventoryQuantity : Option Int
  inventoryManagement : Option String
  inventoryPolicy : String
  metafields : List (String × String)
deriving DecidableEq, Repr

/-- The product record of the price query (Shopify's `productType` is a
non-null string, empty when unset). -/
structure PriceProduct where
  handle : String
  title : String
  productType : String
  variants : List PriceVariant
  metafields : List (String × String)
deriving DecidableEq, Repr

/-- `calculateConversion` (src/unnamed/part_002 lines 373-391): the
step-1 conversion factor table.  An empty uom or sell unit is falsy and
short-circuits to 1; unmatched pairs default to 1; the pallet row reads
the `sf_plt` metafield. -/
def calculateConversion (uom sellUnit : String)
    (vms : List (String × String)) : JSNum :=
  if uom = "" ∨ sellUnit = "" then .num 1
  else if uom = "SF" then
    if sellUnit = "SF" then .num 1
    else if sellUnit = "EA" ∨ sellUnit = "SHT" then jsNumOfMeta (metaLookup vms "sf_ea")
    else if sellUnit = "BX" ∨ sellUnit = "SET" then jsNumOfMeta (metaLookup vms "sf_box")
    else if sellUnit = "PLT" then jsNumOfMeta (metaLookup vms "sf_plt")
    else .num 1
  else .num 1

/-- The `{current, compare}` pair produced by `calculatePricePerSqFt`. -/
structure PricePerUnit where
  current : JSNum
  compare : Option JSNum
deriving DecidableEq, Repr

/-- `calculatePricePerSqFt` (src/unnamed/part_002 lines 393-420).
`totalSf` starts at 1 and is only reassigned inside the `uom === 'SF'`
switch; the pallet arm multiplies `sf_box` by `bx_plt` (not `sf_plt`).
The ternary `totalSf ? price / totalSf : price` falls back to the raw
price when `totalSf` is 0 or NaN, but only for `current`: the `compare`
ternary tests `compareAtPrice` (null or empty string is falsy), and when
it is truthy divides it by `totalSf` unconditionally. -/
def calculatePricePerSqFt (uom sellUnit price : String)
    (compareAtPrice : Option String) (vms : List (String × String)) : PricePerUnit :=
  let totalSf : JSNum :=
    if uom = "SF" then
      if sellUnit = "SF" then .num 1
      else if sellUnit = "EA" ∨ sellUnit = "SHT" then jsNumOfMeta (metaLookup vms "sf_ea")
      else if sellUnit = "BX" ∨ sellUnit = "SET" then jsNumOfMeta (metaLookup vms "sf_box")
      else if sellUnit = "PLT" then
        JSNum.mul (jsNumOfMeta (metaLookup vms "sf_box")) (jsNumOfMeta (metaLookup vms "bx_plt"))
      else .num 1
    else .num 1
  { current := if totalSf.truthy then JSNum.div (toNumber price) totalSf else toNumber price
    compare :=
      match compareAtPrice with
      | some c => if c = "" then none else some (JSNum.div (toNumber c) totalSf)
      | none => none }

/-- JS `quantity === 0` where quantity may be null. -/
def jsEqZero : Option Int → Bool
  | some q => q == 0
  | none => false

/-- JS `quantity > 0` where quantity may be null (`null > 0` is false). -/
def jsPos : Option Int → Bool
  | some q => decide (0 < q)
  | none => false

/-- The text a JS template literal renders for the quantity value. -/
def jsShow : Option Int → String
  | some q => toString q
  | none => "null"

/-- The `Only ${quantity} left!` subtext. -/
def onlyLeftStr (q : Option Int) : String :=
  "Only " ++ jsShow q ++ " left!"

/-- The `{notice, subtext, color, hasBoldText}` record. -/
structure StockNotice where
  notice : String
  subtext : String
  color : String
  hasBoldText : Bool
deriving DecidableEq, Repr

/-- The all-empty stock record. -/
def emptyNotice : StockNotice := ⟨"", "", "", false⟩

/-- `determineStockStatus` (src/unnamed/part_002 lines 422-443). -/
def determineStockStatus (status : String) (management : Option String)
    (policy : String) (quantity : Option Int) : StockNotice :=
  if status = "ACTIVE" then
    if management = some "shopify" ∧ policy = "continue" then
      if jsEqZero quantity then ⟨"Temporarily", "Oversold", "#FD8B07", true⟩
      else emptyNotice
    else emptyNotice
  else emptyNotice

/-- `determineStockNotice` (src/unnamed/part_002 lines 445-490): the
stock decision table.  Note the clearance arm has a bare `else`, so a
null or negative quantity also yields the `Out of Stock` subtext there,
still with an empty `notice`. -/
def determineStockNotice (status : String) (management : Option String)
    (policy : String) (quantity : Option Int) : StockNotice :=
  if status = "ACTIVE" then
    if management = some "shopify" ∧ policy = "continue" then
      if jsEqZero quantity then ⟨"Temporarily", "Oversold", "#FD8B07", true⟩
      else if jsPos quantity then ⟨"Low Stock", onlyLeftStr quantity, "#FD8B07", false⟩
      else emptyNotice
    else emptyNotice
  else if status = "DISCONTINUED" then
    if management = some "shopify" ∧ policy = "deny" then
      if jsEqZero quantity then ⟨"Discontinued", "Out of Stock", "#DC3545", false⟩
      else if jsPos quantity then ⟨"Discontinued", onlyLeftStr quantity, "#FD8B07", false⟩
      else emptyNotice
    else emptyNotice
  else if status = "CLEARANCE" then
    if management = some "shopify" ∧ policy = "deny" then
      if jsPos quantity then ⟨"", onlyLeftStr quantity, "#FD8B07", false⟩
      else ⟨"", "Out of Stock", "#DC3545", false⟩
    else emptyNotice
  else emptyNotice

/-- `{singular, plural}` unit display labels. -/
structure UnitDisplay where
  singular : String
  plural : String
deriving DecidableEq, Repr

/-- `determineUnitDisplay` (src/unnamed/part_002 lines 492-509). -/
def determineUnitDisplay (sellUnit : String) : UnitDisplay :=
  if sellUnit = "BX" then ⟨"box", "boxes"⟩
  else if sellUnit = "SF" then ⟨"sq.ft", "sq.ft"⟩
  else if sellUnit = "EA" then ⟨"piece", "pieces"⟩
  else if sellUnit = "SHT" then ⟨"sheet", "sheets"⟩
  else if sellUnit = "SET" then ⟨"set", "sets"⟩
  else if sellUnit = "PLT" then ⟨"pallet", "pallets"⟩
  else ⟨"", ""⟩

/-- The full response payload of a successful `/price/:handle` call. -/
structure PriceInfo where
  currentPrice : String
  compareAtPrice : Option String
  onSale : Bool
  quantity : Option Int
  management : Option String
  policy : String
  uom : String
  sellUnit : String
  status : String
  productType : String
  conversion : JSNum
  pricePerSqFt : Option PricePerUnit
  stock : StockNotice
  stockNotice : StockNotice
  unitDisplay : UnitDisplay
deriving DecidableEq, Repr

/-- Assembly of the response (src/unnamed/part_002 lines 319-363) from
the first product node and its first variant.  `pricePerSqFt` is only
attached when `productType.toUpperCase() !== 'TRIM'`. -/
def buildPriceInfo (product : PriceProduct) (variant : PriceVariant) : PriceInfo :=
  let vms := variant.metafields
  let pms := product.metafields
  let uom := ((metaLookup vms "uom").getD "").toUpper
  let sellUnit := ((metaLookup vms "sell_unit").getD "").toUpper
  let status := ((metaLookup pms "status").getD "").toUpper
  { currentPrice := variant.price
    compareAtPrice := variant.compareAtPrice
    onSale := jsOnSale variant.compareAtPrice variant.price
    quantity := variant.inventoryQuantity
    management := variant.inventoryManagement
    policy := variant.inventoryPolicy
    uom := uom
    sellUnit := sellUnit
    status := status
    productType := product.productType.toUpper
    conversion := calculateConversion uom sellUnit vms
    pricePerSqFt :=
      if product.productType.toUpper ≠ "TRIM" then
        some (calculatePricePerSqFt uom sellUnit variant.price variant.compareAtPrice vms)
      else none
    stock := determineStockStatus status variant.inventoryManagement
      variant.inventoryPolicy variant.inventoryQuantity
    stockNotice := determineStockNotice status variant.inventoryManagement
      variant.inventoryPolicy variant.inventoryQuantity
    unitDisplay := determineUnitDisplay sellUnit }

/-- Outcome of the `/price/:handle` endpoint. -/
inductive PriceResult where
  | notFound
  | serverError
  | ok (info : PriceInfo)
deriving DecidableEq, Repr

/-- The `/price/:handle` handler (src/unnamed/part_002 lines 296-371)
applied to the (possibly absent) first product node of the upstream
response.  An absent product is answered 404.  A product with no
variants makes `variant` undefined, so `variant.metafields.nodes.reduce`
throws a TypeError that the catch turns into HTTP 500 — not 404. -/
def priceHandler (resp : Option PriceProduct) : PriceResult :=
  match resp with
  | none => .notFound
  | some product =>
      match product.variants.head? with
      | none => .serverError
      | some variant => .ok (buildPriceInfo product variant)

example : determineStockNotice "ACTIVE" (some "shopify") "continue" (some 0)
    = ⟨"Temporarily", "Oversold", "#FD8B07", true⟩ := by decide
example : determineStockNotice "CLEARANCE" (some "shopify") "deny" (some (-1))
    = ⟨"", "Out of Stock", "#DC3545", false⟩ := by decide
example : calculateConversion "SF" "PLT" [("sf_box", "0"), ("bx_plt", "2"), ("sf_plt", "5")]
    = .num 5 := by decide
example : priceHandler none = .notFound := by decide

/-! ## Helper lemmas -/

/-- Closed form of a failure-free pagination run: every record is
accumulated and the received page sizes are `length / 100` full pages
followed by one short page of `length % 100` records.  Any fuel above
the dataset length is enough. -/
theorem fetchPagesGo_nofail :
    ∀ (fuel : Nat) (l : List RawReview) (p : Nat), l.length < fuel →
      fetchPagesGo (fun _ => false) fuel l p
        = (List.replicate (l.length / 100) 100 ++ [l.length % 100], .ok l)
  | 0, _, _, h => absurd h (by omega)
  | fuel + 1, l, p, h => by
    by_cases h100 : l.length < 100
    · have ht : (l.take 100).length = l.length := by
        simp [List.length_take]; omega
      have he : l.take 100 = l := List.take_of_length_le (by omega)
      simp [fetchPagesGo, ht, he, h100, Nat.div_eq_of_lt h100, Nat.mod_eq_of_lt h100]
    · have hlen : 100 ≤ l.length := by omega
      have ht : (l.take 100).length = 100 := by
        simp [List.length_take]; omega
      have hrec := fetchPagesGo_nofail fuel (l.drop 100) (p + 1)
        (by simp [List.length_drop]; omega)
      have hdiv : l.length / 100 = (l.length - 100) / 100 + 1 := by omega
      have hmod : l.length % 100 = (l.length - 100) % 100 := by omega
      simp only [fetchPagesGo, ht, List.length_drop] at hrec ⊢
      rw [if_neg (by simp), if_neg (by omega)]
      rw [hrec, hdiv, hmod, List.replicate_succ]
      simp [List.take_append_drop]

/-- A concrete review used to instantiate theorems on sample data. -/
def demoReview : RawReview :=
  { rating := 5, created_at := "2024-01-01", product_handle := "tile-x"
    product_title := "Tile X", title := "Great", body := "Nice tile"
    published := some true, reviewer := none, pictures := none }

/-- C2: the pagination loop requests pages of 100 starting at page 1,
accumulates every record of every returned page including the final
short page, and stops after the first page with fewer than 100 records
(possibly zero); an upstream of 250 reviews yields exactly 3 page
requests of sizes 100, 100 and 50, all 250 records accumulated. -/
theorem fetchReviews_pagination (l : List RawReview) :
    fetchPages (fun _ => false) l 1
      = (List.replicate (l.length / 100) 100 ++ [l.length % 100], .ok l)
    ∧ fetchPages (fun _ => false) (List.replicate 250 demoReview) 1
      = ([100, 100, 50], .ok (List.replicate 250 demoReview)) := by
  constructor
  · exact fetchPagesGo_nofail (l.length + 1) l 1 (by omega)
  · have h := fetchPagesGo_nofail (250 + 1) (List.replicate 250 demoReview) 1
      (by rw [List.length_replicate]; omega)
    have h2 : (250 : ℕ) / 100 = 2 := by norm_num
    have h3 : (250 : ℕ) % 100 = 50 := by norm_num
    rw [List.length_replicate, h2, h3] at h
    simp only [fetchPages, List.length_replicate]
    rw [h]
    rfl

/-- C1: when the pagination run fails on any page, the handler leaves
the cache untouched and serves the previously cached dataset when one
exists (whatever its age), or answers HTTP 500 when none does; the
partial accumulation of the aborted run is neither stored nor returned. -/
theorem fetchReviews_stale_fallback (cache : ReviewsCache) (now : Int)
    (fail : Nat → Bool) (upstream : List RawReview)
    (hstale : cacheFresh cache now = false)
    (hfail : (fetchPages fail upstream 1).2 = .error ()) :
    (fetchHandler cache now fail upstream).1 = cache
    ∧ (∀ d, cache.data = some d → (fetchHandler cache now fail upstream).2 = .ok d)
    ∧ (cache.data = none → (fetchHandler cache now fail upstream).2 = .err500) := by
  refine ⟨?_, ?_, ?_⟩
  · cases hc : cache.data <;>
      simp [fetchHandler, hstale, refreshRun, hfail, hc]
  · intro d hd
    simp [fetchHandler, hstale, refreshRun, hfail, hd]
  · intro hd
    simp [fetchHandler, hstale, refreshRun, hfail, hd]

/-- A cache entry written long ago: stale for any recent `now`. -/
def staleCache : ReviewsCache := ⟨some ⟨[]⟩, some 1⟩

/-- Witness for C1: a stale cache entry, an upstream failing on page 1;
the handler keeps the cache and serves the stale payload. -/
theorem fetchReviews_stale_fallback_witness :
    (fetchHandler staleCache 1000000000 (fun _ => true) []).1 = staleCache
    ∧ (fetchHandler staleCache 1000000000 (fun _ => true) []).2 = .ok ⟨[]⟩ := by
  have h := fetchReviews_stale_fallback staleCache 1000000000 (fun _ => true) []
    (by decide) (by decide)
  exact ⟨h.1, h.2.1 ⟨[]⟩ rfl⟩

/-- C9: a request body whose `handles` field is missing, null, or any
non-array value is rejected with HTTP 400 and dispatches no upstream
query (the first component, the list of issued chunk queries, is empty). -/
theorem productsHandler_validation
    (u : List String → Except Unit (Option (List ProductNode))) :
    productsHandler .missing u = ([], .badRequest)
    ∧ productsHandler .nullv u = ([], .badRequest)
    ∧ productsHandler .nonArray u = ([], .badRequest) :=
  ⟨rfl, rfl, rfl⟩

/-- C10: `onSale` applies the JS `>` operator to the raw upstream
values: for two price strings this is lexicographic code-unit
comparison (so compareAtPrice "9.00" against price "10.00" is on sale,
although 9 < 10 numerically), and a null compareAtPrice is never on
sale for the nonnegative decimal price strings the catalog delivers. -/
theorem onSale_string_comparison (c p : String) (q : ℚ) :
    (jsOnSale (some c) p = lexGtChars c.data p.data)
    ∧ (toNumber p = .num q → 0 ≤ q → jsOnSale none p = false)
    ∧ jsOnSale (some "9.00") "10.00" = true
    ∧ toNumber "9.00" = .num 9 ∧ toNumber "10.00" = .num 10 ∧ ¬(9 : ℚ) > 10 := by
  refine ⟨rfl, ?_, by decide, by decide, by decide, by norm_num⟩
  intro hp hq
  simp only [jsOnSale, hp, jsGtNum, decide_eq_false_iff_not]
  exact not_lt.mpr hq

/-- Witness for C10: the null-compareAtPrice clause at price "10.00". -/
theorem onSale_string_comparison_witness : jsOnSale none "10.00" = false :=
  (onSale_string_comparison "9.00" "10.00" 10).2.1 (by decide) (by norm_num)

/-- C3: the sanitized dataset built after a complete run holds exactly
the sanitized images of the records with `published === true` and
`rating >= 4`; anything else contributes nothing. -/
theorem sanitizedReviews_spec (l : List RawReview) (r : RawReview) (s : SanReview) :
    (r ∈ l → r.published = some true → 4 ≤ r.rating →
      sanitizeReview r ∈ (sanitizedReviews l).reviews)
    ∧ (s ∈ (sanitizedReviews l).reviews →
      ∃ r0, r0 ∈ l ∧ r0.published = some true ∧ 4 ≤ r0.rating ∧ s = sanitizeReview r0) := by
  constructor
  · intro hm hp hr
    simp only [sanitizedReviews, List.mem_map]
    exact ⟨r, List.mem_filter.mpr ⟨hm, by simp [hp, hr]⟩, rfl⟩
  · intro hs
    simp only [sanitizedReviews, List.mem_map] at hs
    obtain ⟨r0, hr0, hmap⟩ := hs
    obtain ⟨h1, h2⟩ := List.mem_filter.mp hr0
    simp only [Bool.and_eq_true, beq_iff_eq, decide_eq_true_eq] at h2
    exact ⟨r0, h1, h2.1, h2.2, hmap.symm⟩

/-- Witness for C3: a published, rating-5 review survives into the output. -/
theorem sanitizedReviews_spec_witness :
    sanitizeReview demoReview ∈ (sanitizedReviews [demoReview]).reviews :=
  (sanitizedReviews_spec [demoReview] demoReview (sanitizeReview demoReview)).1
    (by simp) rfl (by decide)

/-- A chunking run with enough fuel is empty exactly on empty input. -/
theorem chunksGo_eq_nil :
    ∀ (fuel : Nat) (hs : List String), hs.length ≤ fuel →
      (chunksGo fuel hs = [] ↔ hs = [])
  | 0, hs, h => by
    have : hs = [] := List.eq_nil_of_length_eq_zero (by omega)
    simp [chunksGo, this]
  | fuel + 1, hs, _ => by
    cases hs with
    | nil => simp [chunksGo]
    | cons a t => simp [chunksGo]

/-- Concatenating the chunks gives back the input in order. -/
theorem chunksGo_flatten :
    ∀ (fuel : Nat) (hs : List String), hs.length ≤ fuel →
      (chunksGo fuel hs).flatten = hs
  | 0, hs, h => by
    have : hs = [] := List.eq_nil_of_length_eq_zero (by omega)
    simp [chunksGo, this]
  | fuel + 1, hs, h => by
    by_cases hnil : hs.isEmpty
    · simp [chunksGo, hnil, List.isEmpty_iff.mp hnil]
    · have hrec := chunksGo_flatten fuel (hs.drop 50)
        (by simp [List.length_drop]; omega)
      simp [chunksGo, hnil, hrec, List.take_append_drop]

/-- Every chunk is nonempty and holds at most 50 handles. -/
theorem chunksGo_mem_bound :
    ∀ (fuel : Nat) (hs : List String) (c : List String),
      c ∈ chunksGo fuel hs → c.length ≤ 50 ∧ c ≠ []
  | 0, hs, c, h => by simp [chunksGo] at h
  | fuel + 1, hs, c, h => by
    by_cases hnil : hs.isEmpty
    · simp [chunksGo, hnil] at h
    · simp only [chunksGo, hnil, Bool.false_eq_true, if_false, List.mem_cons] at h
      rcases h with h | h
      · subst h
        refine ⟨by simp [List.length_take], ?_⟩
        simp only [ne_eq, List.take_eq_nil_iff, not_or]
        exact ⟨by omega, by simpa [List.isEmpty_iff] using hnil⟩
      · exact chunksGo_mem_bound fuel (hs.drop 50) c h

/-- Every chunk except possibly the last holds exactly 50 handles. -/
theorem chunksGo_full_chunks :
    ∀ (fuel : Nat) (hs : List String) (i : Nat), hs.length ≤ fuel →
      i + 1 < (chunksGo fuel hs).length →
      ((chunksGo fuel hs).getD i []).length = 50
  | 0, hs, i, hf, hi => by simp [chunksGo] at hi
  | fuel + 1, hs, i, hf, hi => by
    by_cases hnil : hs.isEmpty
    · simp [chunksGo, hnil] at hi
    · have hdf : (hs.drop 50).length ≤ fuel := by
        simp only [List.length_drop]
        have : hs ≠ [] := by simpa [List.isEmpty_iff] using hnil
        have : 0 < hs.length := List.length_pos.mpr this
        omega
      simp only [chunksGo, hnil, Bool.false_eq_true, if_false] at hi ⊢
      cases i with
      | zero =>
        have hrest : chunksGo fuel (hs.drop 50) ≠ [] := by
          intro hempty
          simp [hempty] at hi
        have hdrop : hs.drop 50 ≠ [] :=
          fun hd => hrest ((chunksGo_eq_nil fuel (hs.drop 50) hdf).mpr hd)
        have hlong : 50 < hs.length := by
          by_contra hle
          exact hdrop (List.drop_eq_nil_of_le (by omega))
        simp [List.length_take]
        omega
      | succ j =>
        have := chunksGo_full_chunks fuel (hs.drop 50) j hdf (by simpa using hi)
        simpa using this

/-- C7: the handler splits the input into consecutive chunks of at most
50 handles (all exactly 50 except possibly the last), dispatches exactly
one upstream query per chunk, fails the whole call if any chunk query
fails, and on success merges every resolved node of every chunk into the
response; 120 handles produce exactly 3 queries of 50, 50 and 20. -/
theorem productsHandler_chunking (hs : List String)
    (u : List String → Except Unit (Option (List ProductNode))) :
    (productsHandler (.arr hs) u).1 = handleChunks hs
    ∧ (handleChunks hs).flatten = hs
    ∧ (∀ c ∈ handleChunks hs, c.length ≤ 50 ∧ c ≠ [])
    ∧ (∀ i, i + 1 < (handleChunks hs).length →
        ((handleChunks hs).getD i []).length = 50)
    ∧ ((∃ c ∈ handleChunks hs, u c = .error ()) →
        (productsHandler (.arr hs) u).2 = .serverError)
    ∧ (∀ ps, (productsHandler (.arr hs) u).2 = .ok ps →
        ∀ c ∈ handleChunks hs, ∀ ns, u c = .ok (some ns) →
          ∀ n ∈ ns, processNode n ∈ ps)
    ∧ (handleChunks (List.replicate 120 "h")).map List.length = [50, 50, 20] := by
  refine ⟨?_, chunksGo_flatten hs.length hs le_rfl, ?_, ?_, ?_, ?_, by decide⟩
  · simp only [productsHandler]
    split <;> rfl
  · exact fun c hc => chunksGo_mem_bound hs.length hs c hc
  · exact fun i hi => chunksGo_full_chunks hs.length hs i le_rfl hi
  · rintro ⟨c, hc, herr⟩
    have hall : ¬ (handleChunks hs).all (fun c => (u c).isOk) := by
      intro hall
      have := List.all_eq_true.mp hall c hc
      rw [herr] at this
      simp [Except.isOk, Except.toBool] at this
    simp only [productsHandler, hall, Bool.false_eq_true, if_false]
  · intro ps hok c hc ns hns n hn
    by_cases hall : (handleChunks hs).all (fun c => (u c).isOk)
    · simp only [productsHandler, hall, if_true, ProductsResult.ok.injEq] at hok
      subst hok
      refine List.mem_map_of_mem processNode (List.mem_flatten.mpr ⟨ns, ?_, hn⟩)
      refine List.mem_map.mpr ⟨c, hc, ?_⟩
      simp [hns]
    · simp [productsHandler, hall] at hok

/-- Witness for C7: a single failing chunk fails the whole resolution. -/
theorem productsHandler_chunking_witness :
    (productsHandler (.arr ["a"]) (fun _ => .error ())).2 = .serverError :=
  (productsHandler_chunking ["a"] (fun _ => .error ())).2.2.2.2.1
    ⟨["a"], by decide, rfl⟩

/-- `jsEqZero` detects exactly a stored quantity of 0. -/
theorem jsEqZero_iff (q : Option Int) : jsEqZero q = true ↔ q = some 0 := by
  cases q <;> simp [jsEqZero]

/-- `jsPos` detects exactly a stored positive quantity. -/
theorem jsPos_iff (q : Option Int) :
    jsPos q = true ↔ ∃ k : Int, q = some k ∧ 0 < k := by
  cases q <;> simp [jsPos]

/-- The six populated rows of the stock decision table, keyed as the
claim keys them: (status, management mode, policy, quantity). -/
def tableRowHit (s : String) (m : Option String) (p : String) (q : Option Int) : Prop :=
  (s = "ACTIVE" ∧ m = some "shopify" ∧ p = "continue"
    ∧ (q = some 0 ∨ ∃ k : Int, q = some k ∧ 0 < k))
  ∨ (s = "DISCONTINUED" ∧ m = some "shopify" ∧ p = "deny"
    ∧ (q = some 0 ∨ ∃ k : Int, q = some k ∧ 0 < k))
  ∨ (s = "CLEARANCE" ∧ m = some "shopify" ∧ p = "deny"
    ∧ (q = some 0 ∨ ∃ k : Int, q = some k ∧ 0 < k))

/-- C5: the stock classification agrees with the spec's decision table
on its six populated rows, and every other combination of status,
management mode, policy and quantity yields an empty notice. -/
theorem stockNotice_decision_table (s : String) (m : Option String) (p : String)
    (k : Int) (q : Option Int) :
    determineStockNotice "ACTIVE" (some "shopify") "continue" (some 0)
      = ⟨"Temporarily", "Oversold", "#FD8B07", true⟩
    ∧ (0 < k → determineStockNotice "ACTIVE" (some "shopify") "continue" (some k)
      = ⟨"Low Stock", "Only " ++ toString k ++ " left!", "#FD8B07", false⟩)
    ∧ determineStockNotice "DISCONTINUED" (some "shopify") "deny" (some 0)
      = ⟨"Discontinued", "Out of Stock", "#DC3545", false⟩
    ∧ (0 < k → determineStockNotice "DISCONTINUED" (some "shopify") "deny" (some k)
      = ⟨"Discontinued", "Only " ++ toString k ++ " left!", "#FD8B07", false⟩)
    ∧ (0 < k → determineStockNotice "CLEARANCE" (some "shopify") "deny" (some k)
      = ⟨"", "Only " ++ toString k ++ " left!", "#FD8B07", false⟩)
    ∧ determineStockNotice "CLEARANCE" (some "shopify") "deny" (some 0)
      = ⟨"", "Out of Stock", "#DC3545", false⟩
    ∧ (¬ tableRowHit s m p q → (determineStockNotice s m p q).notice = "") := by
  refine ⟨by decide, ?_, by decide, ?_, ?_, by decide, ?_⟩
  · intro hk
    simp [determineStockNotice, jsEqZero, jsPos, onlyLeftStr, jsShow, hk, hk.ne']
  · intro hk
    simp [determineStockNotice, jsEqZero, jsPos, onlyLeftStr, jsShow, hk, hk.ne']
  · intro hk
    simp [determineStockNotice, jsEqZero, jsPos, onlyLeftStr, jsShow, hk, hk.ne']
  · intro hmiss
    simp only [determineStockNotice]
    split_ifs with h1 h2 h3 h4 h5 h6 h7 h8 h9 h10 h11
    · exact absurd (Or.inl ⟨h1, h2.1, h2.2, Or.inl (jsEqZero_iff _ |>.mp h3)⟩) hmiss
    · exact absurd (Or.inl ⟨h1, h2.1, h2.2, Or.inr (jsPos_iff _ |>.mp h4)⟩) hmiss
    · rfl
    · rfl
    · exact absurd (Or.inr (Or.inl ⟨h5, h6.1, h6.2,
        Or.inl (jsEqZero_iff _ |>.mp h7)⟩)) hmiss
    · exact absurd (Or.inr (Or.inl ⟨h5, h6.1, h6.2,
        Or.inr (jsPos_iff _ |>.mp h8)⟩)) hmiss
    · rfl
    · rfl
    · rfl
    · rfl
    · rfl
    · rfl

/-- Witness for C5: the Low Stock row at quantity 5. -/
theorem stockNotice_decision_table_witness :
    determineStockNotice "ACTIVE" (some "shopify") "continue" (some 5)
      = ⟨"Low Stock", "Only 5 left!", "#FD8B07", false⟩ := by
  rw [(stockNotice_decision_table "X" none "x" 5 none).2.1 (by norm_num)]
  decide

/-- A catalog product whose variant list is empty. -/
def noVariantProduct : PriceProduct :=
  { handle := "tile-x", title := "Tile X", productType := "TILE"
    variants := [], metafields := [] }

/-- A concrete primary variant used to instantiate theorems. -/
def demoVariant : PriceVariant :=
  { price := "100", compareAtPrice := none, inventoryQuantity := some 5
    inventoryManagement := some "shopify", inventoryPolicy := "deny"
    metafields := [("uom", "SF"), ("sell_unit", "BX"), ("sf_box", "10")] }

/-- C6 counterexample: a product that exists but has no variant is
answered with HTTP 500 (the TypeError lands in the catch handler), not
with the NotFound the claim requires. -/
theorem priceHandler_missing_variant_counterexample :
    priceHandler (some noVariantProduct) = .serverError
    ∧ priceHandler (some noVariantProduct) ≠ .notFound :=
  ⟨rfl, by decide⟩

/-- C6 amended: a missing product is answered NotFound (404); a product
whose primary variant is missing is answered with a generic 500 error,
not 404; a successful call returns the fully assembled `PriceInfo`,
whose optional price-per-base-unit member is present exactly when the
product type is not the trim category. -/
theorem priceHandler_amended (prod : PriceProduct) (v : PriceVariant)
    (vs : List PriceVariant) :
    priceHandler none = .notFound
    ∧ (prod.variants = [] → priceHandler (some prod) = .serverError)
    ∧ (prod.variants = v :: vs → priceHandler (some prod) = .ok (buildPriceInfo prod v))
    ∧ ((buildPriceInfo prod v).pricePerSqFt.isSome ↔ prod.productType.toUpper ≠ "TRIM") := by
  refine ⟨rfl, ?_, ?_, ?_⟩
  · intro h
    simp [priceHandler, h]
  · intro h
    simp [priceHandler, h]
  · by_cases h : prod.productType.toUpper = "TRIM" <;> simp [buildPriceInfo, h]

/-- Witness for C6: the no-variant product goes through the
missing-variant clause of the amended statement. -/
theorem priceHandler_amended_witness :
    priceHandler (some noVariantProduct) = .serverError :=
  (priceHandler_amended noVariantProduct demoVariant []).2.1 rfl

/-- Pallet-priced variant metafields where the step-1 factor (`sf_plt`)
disagrees with the area actually used by `calculatePricePerSqFt`
(`sf_box * bx_plt`), and that product is zero. -/
def pltMetafields : List (String × String) :=
  [("sf_box", "0"), ("bx_plt", "2"), ("sf_plt", "5")]

/-- C4 counterexample: for uom "SF", sell unit "PLT", price "100",
compare-at "50" and the metafields above, the step-1 conversion factor
is 5, so the claim predicts a price-per-base-unit of 100 / 5 = 20 and a
compare-at fallback of 50; the code instead divides by
`sf_box * bx_plt = 0`, falls back to the raw 100 for the current price,
and produces Infinity (not the raw 50) for the compare-at price. -/
theorem pricePerSqFt_claim_counterexample :
    calculateConversion "SF" "PLT" pltMetafields = .num 5
    ∧ JSNum.div (toNumber "100") (calculateConversion "SF" "PLT" pltMetafields)
      = .num 20
    ∧ (calculatePricePerSqFt "SF" "PLT" "100" (some "50") pltMetafields).current
      = .num 100
    ∧ (calculatePricePerSqFt "SF" "PLT" "100" (some "50") pltMetafields).compare
      = some .inf
    ∧ JSNum.num 100 ≠ .num 20
    ∧ some JSNum.inf ≠ some (toNumber "50") := by
  have hb : jsNumOfMeta (metaLookup pltMetafields "sf_box") = .num 0 := by decide
  have hx : jsNumOfMeta (metaLookup pltMetafields "bx_plt") = .num 2 := by decide
  have hc : calculateConversion "SF" "PLT" pltMetafields = .num 5 := by decide
  have hp : toNumber "100" = .num 100 := by decide
  have h50 : toNumber "50" = .num 50 := by decide
  have hmul : JSNum.mul (.num 0) (.num 2) = .num 0 := by
    simp [JSNum.mul]
  have hdiv0 : JSNum.div (.num 50) (.num 0) = .inf := by decide
  have e1 : ("PLT" : String) ≠ "SF" := by decide
  have e2 : ¬(("PLT" : String) = "EA" ∨ ("PLT" : String) = "SHT") := by decide
  have e3 : ¬(("PLT" : String) = "BX" ∨ ("PLT" : String) = "SET") := by decide
  have e4 : ("50" : String) ≠ "" := by decide
  refine ⟨hc, ?_, ?_, ?_, by norm_num, by rw [h50]; decide⟩
  · rw [hp, hc]
    norm_num [JSNum.div]
  · simp [calculatePricePerSqFt, e1, e2, e3, hb, hx, hmul, hp, JSNum.truthy]
  · simp [calculatePricePerSqFt, e1, e2, e3, e4, hb, hx, hmul, h50, JSNum.truthy, hdiv0]

/-- C4 amended: a trim product carries no price-per-base-unit; otherwise
the current price-per-base-unit is the price divided by a total-area
factor that follows the step-1 table for SF/BX but, for pallets, is
`sf_box * bx_plt` rather than the step-1 `sf_plt`; the fallback to the
raw price when the factor is 0 (or NaN) applies only to the current
price; the compare-at member is null when `compareAtPrice` is null and
is otherwise divided by the factor unconditionally, yielding Infinity
when the factor is 0 and the compare-at price positive. -/
theorem pricePerSqFt_amended (prod : PriceProduct) (v : PriceVariant)
    (price cs : String) (cap : Option String) (uomS suS : String)
    (vms : List (String × String)) (pq b x cq : ℚ) :
    (prod.productType.toUpper = "TRIM" → (buildPriceInfo prod v).pricePerSqFt = none)
    ∧ (toNumber price = .num pq → jsNumOfMeta (metaLookup vms "sf_box") = .num b →
        b ≠ 0 →
        (calculatePricePerSqFt "SF" "BX" price none vms).current = .num (pq / b))
    ∧ (toNumber price = .num pq → jsNumOfMeta (metaLookup vms "sf_box") = .num b →
        jsNumOfMeta (metaLookup vms "bx_plt") = .num x → b * x ≠ 0 →
        (calculatePricePerSqFt "SF" "PLT" price none vms).current = .num (pq / (b * x)))
    ∧ (jsNumOfMeta (metaLookup vms "sf_box") = .num 0 →
        (calculatePricePerSqFt "SF" "BX" price cap vms).current = toNumber price)
    ∧ (calculatePricePerSqFt uomS suS price none vms).compare = none
    ∧ (cs ≠ "" → toNumber cs = .num cq →
        jsNumOfMeta (metaLookup vms "sf_box") = .num b → b ≠ 0 →
        (calculatePricePerSqFt "SF" "BX" price (some cs) vms).compare
          = some (.num (cq / b)))
    ∧ (cs ≠ "" → 0 < cq → toNumber cs = .num cq →
        jsNumOfMeta (metaLookup vms "sf_box") = .num 0 →
        (calculatePricePerSqFt "SF" "BX" price (some cs) vms).compare
          = some .inf) := by
  have eB1 : ("BX" : String) ≠ "SF" := by decide
  have eB2 : ¬(("BX" : String) = "EA" ∨ ("BX" : String) = "SHT") := by decide
  have eP1 : ("PLT" : String) ≠ "SF" := by decide
  have eP2 : ¬(("PLT" : String) = "EA" ∨ ("PLT" : String) = "SHT") := by decide
  have eP3 : ¬(("PLT" : String) = "BX" ∨ ("PLT" : String) = "SET") := by decide
  refine ⟨?_, ?_, ?_, ?_, ?_, ?_, ?_⟩
  · intro h
    simp [buildPriceInfo, h]
  · intro hp hb hbne
    simp [calculatePricePerSqFt, eB1, eB2, hp, hb, JSNum.truthy, JSNum.div, hbne]
  · intro hp hb hx hbx
    have hmul : JSNum.mul (.num b) (.num x) = .num (b * x) := rfl
    simp [calculatePricePerSqFt, eP1, eP2, eP3, hp, hb, hx, hmul, JSNum.truthy,
      JSNum.div, hbx]
  · intro hb
    simp [calculatePricePerSqFt, eB1, eB2, hb, JSNum.truthy]
  · simp only [calculatePricePerSqFt]
  · intro hcs hcq hb hbne
    simp [calculatePricePerSqFt, eB1, eB2, hcs, hcq, hb, JSNum.truthy, JSNum.div, hbne]
  · intro hcs hpos hcq hb
    simp [calculatePricePerSqFt, eB1, eB2, hcs, hcq, hb, JSNum.truthy, JSNum.div,
      hpos, hpos.ne']

/-- Witness for C4 (amended): the golden case uom "SF", sell unit "BX",
`sf_box` 10 and price "100" gives a current price-per-base-unit of 10. -/
theorem pricePerSqFt_amended_witness :
    (calculatePricePerSqFt "SF" "BX" "100" none [("sf_box", "10")]).current
      = .num 10 := by
  rw [(pricePerSqFt_amended noVariantProduct demoVariant "100" "" none "u" "s"
    [("sf_box", "10")] 100 10 0 0).2.1 (by decide) (by decide) (by norm_num)]
  norm_num

/-- Running a concatenated schedule runs the two halves in order. -/
theorem execSchedule_append (now : Int) (fail : Nat → Bool) (upstream : List RawReview)
    (a b : List Nat) (phs : Nat → ReqPhase) (s : StampedeState) :
    execSchedule now fail upstream (a ++ b) phs s
      = execSchedule now fail upstream b
          (execSchedule now fail upstream a phs s).1
          (execSchedule now fail upstream a phs s).2 := by
  induction a generalizing phs s with
  | nil => rfl
  | cons i t ih => simp [execSchedule, ih]

/-- With an empty cache slot, a pass in which requests `0..n-1` all take
their cache-check step moves them all to `fetching` and leaves the
shared state untouched: every one of them observes the miss. -/
theorem execSchedule_start_pass (now : Int) (fail : Nat → Bool)
    (upstream : List RawReview) :
    ∀ (n : Nat) (phs : Nat → ReqPhase) (s : StampedeState),
      s.cache.data = none → (∀ i, i < n → phs i = .start) →
      execSchedule now fail upstream (List.range n) phs s
        = (fun i => if i < n then ReqPhase.fetching else phs i, s)
  | 0, phs, s, hc, hph => by
    simp only [List.range_zero, execSchedule]
    refine Prod.ext ?_ rfl
    funext i
    simp
  | n + 1, phs, s, hc, hph => by
    have h1 := execSchedule_start_pass now fail upstream n phs s hc
      (fun i hi => hph i (by omega))
    have hfresh : cacheFresh s.cache now = false := by
      simp [cacheFresh, hc]
    rw [List.range_succ, execSchedule_append, h1]
    have hn : (if n < n then ReqPhase.fetching else phs n) = ReqPhase.start := by
      simp [hph n (by omega)]
    simp only [execSchedule, reqStep, hn, hfresh, Bool.false_eq_true, if_false]
    refine Prod.ext ?_ rfl
    funext i
    by_cases hin : i = n
    · simp [hin]
    · by_cases hlt : i < n
      · simp [hin, hlt, Nat.lt_succ_of_lt hlt]
      · have hge : ¬ i < n + 1 := by omega
        simp [hin, hlt, hge]

/-- A request not appearing in a schedule keeps its phase. -/
theorem execSchedule_untouched (now : Int) (fail : Nat → Bool)
    (upstream : List RawReview) :
    ∀ (sched : List Nat) (phs : Nat → ReqPhase) (s : StampedeState) (j : Nat),
      j ∉ sched → (execSchedule now fail upstream sched phs s).1 j = phs j
  | [], phs, s, j, hj => rfl
  | i :: t, phs, s, j, hj => by
    have hji : j ≠ i := fun h => hj (h ▸ List.mem_cons_self i t)
    have hjt : j ∉ t := fun h => hj (List.mem_cons_of_mem i h)
    simp only [execSchedule]
    rw [execSchedule_untouched now fail upstream t _ _ j hjt]
    simp [hji]

/-- A pass in which requests `0..n-1` are all already committed to
fetching performs n pagination runs, whatever the shared state holds. -/
theorem execSchedule_fetch_pass (now : Int) (fail : Nat → Bool)
    (upstream : List RawReview) :
    ∀ (n : Nat) (phs : Nat → ReqPhase) (s : StampedeState),
      (∀ i, i < n → phs i = .fetching) →
      (execSchedule now fail upstream (List.range n) phs s).2.runs = s.runs + n
  | 0, phs, s, hph => by simp [execSchedule]
  | n + 1, phs, s, hph => by
    have h1 := execSchedule_fetch_pass now fail upstream n phs s
      (fun i hi => hph i (by omega))
    have hn : (execSchedule now fail upstream (List.range n) phs s).1 n
        = ReqPhase.fetching := by
      rw [execSchedule_untouched now fail upstream (List.range n) phs s n
        (by simp)]
      exact hph n (by omega)
    rw [List.range_succ, execSchedule_append]
    simp only [execSchedule, reqStep, hn]
    omega

/-- C8 counterexample: with an empty cache, two concurrent callers whose
cache checks both happen before either starts its refresh (schedule
request 0 checks, request 1 checks, request 0 fetches, request 1
fetches) trigger two pagination runs, not the single run the claim
demands. -/
theorem fetch_singleflight_counterexample :
    (execSchedule 0 (fun _ => false) [] [0, 1, 0, 1] (fun _ => .start)
      ⟨⟨none, none⟩, 0⟩).2.runs = 2 ∧ (2 : Nat) ≠ 1 :=
  ⟨by decide, by decide⟩

/-- C8 amended: the handler performs no single-flight coalescing: under
the interleaving in which all n concurrent callers pass the cache check
before any of them starts fetching, every caller launches its own
pagination run, so n callers produce n upstream runs (the writes of the
earlier finishers do not stop the later ones). -/
theorem fetch_stampede_amended (n : Nat) (now : Int) (fail : Nat → Bool)
    (upstream : List RawReview) :
    (execSchedule now fail upstream (List.range n ++ List.range n)
      (fun _ => .start) ⟨⟨none, none⟩, 0⟩).2.runs = n := by
  have h1 := execSchedule_start_pass now fail upstream n (fun _ => .start)
    ⟨⟨none, none⟩, 0⟩ rfl (fun i _ => rfl)
  rw [execSchedule_append, h1]
  have h2 := execSchedule_fetch_pass now fail upstream n
    (fun i => if i < n then ReqPhase.fetching else ReqPhase.start)
    ⟨⟨none, none⟩, 0⟩ (fun i hi => by simp [hi])
  simpa using h2
